import Mathlib

/-
  Verification development for the redis_lock repository (Go).

  The Go source is shallowly embedded: the key-value store is a function
  from keys to optional entries, Go `error` values are an inductive type
  carrying the errors.Is unwrap chain, goroutine panics are a distinct
  result constructor, and the time-driven loops (the 50 ms blocking poll
  loop and the watchdog ticker) are driven by explicit lists of tick
  events.  Go int64 quantities (seconds, time.Duration nanoseconds) are
  modelled as Int; wrap-around is made explicit where a product can
  overflow (NewRedLock's timing check).
-/

namespace RedisLockModel

/-- Model of Go error values as seen through errors.Is: a sentinel set
(redis.ErrNil, ErrLockAcquiredByOthers, context cancellation), transport
errors, errors.New strings, and fmt.Errorf wrapping with the percent-w verb
(the formatted message text is kept, the wrapped error is the unwrap). -/
inductive GoErr where
  | errNil
  | lockAcquiredByOthers
  | ctxCanceled
  | transport (msg : String)
  | other (msg : String)
  | wrap (msg : String) (inner : GoErr)
deriving DecidableEq, Repr

/-- Go errors.Is: equality with the target, else recurse through Unwrap. -/
def errorsIs (e t : GoErr) : Bool :=
  match e with
  | GoErr.wrap m inner => decide (GoErr.wrap m inner = t) || errorsIs inner t
  | x => decide (x = t)

/-- lock.go IsRetryableErr: errors.Is(err, ErrLockAcquiredByOthers). -/
def IsRetryableErr (e : GoErr) : Bool :=
  errorsIs e GoErr.lockAcquiredByOthers

/-- Errors that the store or transport layer can produce: redis.ErrNil,
transport failures, and fmt wrappings thereof.  The package-local sentinel
ErrLockAcquiredByOthers is never produced by the store. -/
def isStoreErr : GoErr → Bool
  | GoErr.errNil => true
  | GoErr.transport _ => true
  | GoErr.wrap _ inner => isStoreErr inner
  | _ => false

/-- One record in the redis store: the stored string value together with
its remaining TTL in seconds. -/
structure StoreEntry where
  val : String
  ttl : Int
deriving DecidableEq, Repr

/-- The redis key space: each key maps to the entry currently stored, if
any.  Expiry is modelled by the store dropping a key. -/
def Store := String → Option StoreEntry

/-- The store with no keys set. -/
def emptyStore : Store := fun _ => none

/-- Store update at one key. -/
def setKey (s : Store) (k : String) (e : StoreEntry) : Store :=
  fun k2 => if k2 = k then some e else s k2

/-- Store deletion at one key. -/
def delKey (s : Store) (k : String) : Store :=
  fun k2 => if k2 = k then none else s k2

/-- lock.go RedisLockKeyPrefix, concatenated in front of every lock key. -/
def redisLockKeyPfx : String := "REDIS_LOCK_PREFIX_"

/-- lock.go getLockKey: the namespaced redis key for a lock key. -/
def getLockKey (key : String) : String := redisLockKeyPfx ++ key

/-- redis.go Client.SetNX: SET key value EX expireSeconds NX.  When the
key is absent the store records the value with the TTL and redis replies
OK, which SetNX turns into (1, nil); when the key is present redis replies
nil and redigo's Int64 conversion yields (0, redis.ErrNil). -/
def SetNX (s : Store) (key value : String) (expireSeconds : Int) :
    Store × Int × Option GoErr :=
  match s key with
  | some _ => (s, 0, some GoErr.errNil)
  | none => (setKey s key ⟨value, expireSeconds⟩, 1, none)

/-- Message of the fmt.Errorf in tryLock that wraps ErrLockAcquiredByOthers
(the formatted reply value in the original message is abstracted away). -/
def tryLockFailMsg : String :=
  "redis.ErrNil: SETNX did not acquire the lock, retryable"

/-- lock.go tryLock lines 153-163: translation of the SetNX error.  A
redis.ErrNil outcome becomes a wrap of ErrLockAcquiredByOthers; any other
error is returned as-is; no error means the lock was acquired. -/
def tryLockResult (setnxErr : Option GoErr) : Option GoErr :=
  match setnxErr with
  | some e =>
      if errorsIs e GoErr.errNil then
        some (GoErr.wrap tryLockFailMsg GoErr.lockAcquiredByOthers)
      else
        some e
  | none => none

/-- lock.go tryLock: SetNX on the prefixed key with the instance token,
then the error translation of tryLockResult. -/
def tryLock (s : Store) (key token : String) (expireSeconds : Int) :
    Store × Option GoErr :=
  let r := SetNX s (getLockKey key) token expireSeconds
  (r.1, tryLockResult r.2.2)

/-- The instance with this token currently owns the lock on this key:
the prefixed key stores exactly this token. -/
def holdsB (s : Store) (key token : String) : Bool :=
  match s (getLockKey key) with
  | some e => decide (e.val = token)
  | none => false

/-- Lua script LuaCheckAndDeleteDistributionLock: get the key; if absent
or not equal to the target token return 0, else DEL the key and return the
number of keys deleted (1). -/
def luaCheckAndDeleteDistributionLock (s : Store) (lockerKey targetToken : String) :
    Store × Int :=
  match s lockerKey with
  | none => (s, 0)
  | some e => if e.val = targetToken then (delKey s lockerKey, 1) else (s, 0)

/-- Lua script LuaCheckAndExpireDistributionLock: get the key; if absent
or not equal to the target token return 0, else EXPIRE the key to the
given duration and return 1. -/
def luaCheckAndExpireDistributionLock (s : Store) (lockerKey targetToken : String)
    (duration : Int) : Store × Int :=
  match s lockerKey with
  | none => (s, 0)
  | some e =>
      if e.val = targetToken then (setKey s lockerKey ⟨e.val, duration⟩, 1) else (s, 0)

/-- Result of a Go call that can end in a panic instead of returning. -/
inductive GoResult (α : Type) where
  | ok (a : α)
  | panicked
deriving DecidableEq, Repr

/-- Message of the errors.New returned by Unlock on a failed ownership
check. -/
def unlockOwnershipMsg : String := "can not unlock without ownership of lock"

/-- lock.go Unlock: one Eval of the check-and-delete script on the
prefixed key; Eval errors are returned, a script reply other than 1 is the
ownership error, reply 1 is success.  The deferred r.stopDog() runs on
every exit path: when the watchdog was never started stopDog is the nil
CancelFunc and the deferred call panics, discarding the return value. -/
def Unlock (stopDog : Option Unit) (s : Store) (key token : String) :
    Store × GoResult (Option GoErr) :=
  let r := luaCheckAndDeleteDistributionLock s (getLockKey key) token
  let normal : Option GoErr :=
    if r.2 = 1 then none else some (GoErr.other unlockOwnershipMsg)
  (r.1, if stopDog.isSome then GoResult.ok normal else GoResult.panicked)

/-- option.go defaults: the default lock expiry (seconds) and the watchdog
tick period (seconds). -/
def DefaultLockExpireSeconds : Int := 10

/-- Watchdog tick period in seconds, option.go WatchDogWorkStepSeconds. -/
def WatchDogWorkStepSeconds : Int := 3

/-- option.go LockOptions for a single-node lock. -/
structure LockOptions where
  isBlock : Bool
  blockWaitingSeconds : Int
  expireSeconds : Int
  watchDogMode : Bool
deriving DecidableEq, Repr

/-- option.go repairLock: default the blocking wait budget to 5 seconds,
and when no positive expiry was given install the default expiry and turn
watchdog mode on. -/
def repairLock (lo : LockOptions) : LockOptions :=
  let lo2 :=
    if lo.isBlock ∧ lo.blockWaitingSeconds ≤ 0 then
      { lo with blockWaitingSeconds := 5 }
    else lo
  if lo2.expireSeconds > 0 then lo2
  else { lo2 with expireSeconds := DefaultLockExpireSeconds, watchDogMode := true }

/-- Poll interval of the blocking loop in milliseconds, from the ticker in
lock.go blockingLock. -/
def pollIntervalMillis : Int := 50

/-- One 50 ms tick of the blocking poll loop: whether the caller context
is done at this tick, whether the wait budget channel has fired, and what
the tryLock attempt at this tick returns (none means acquired). -/
structure PollTick where
  ctxDone : Bool
  timedOut : Bool
  tryRes : Option GoErr
deriving DecidableEq, Repr

/-- Error returned by blockingLock when the caller context fires. -/
def ctxTimeoutMsg : String := "lock failed, ctx timeout, err"

/-- Error returned by blockingLock when the wait budget elapses; it wraps
ErrLockAcquiredByOthers. -/
def blockTimeoutMsg : String := "block waiting time out, err"

/-- lock.go blockingLock: on each ticker tick check context cancellation,
then the wait-budget channel, then re-attempt tryLock; a retryable failure
continues the loop, anything else returns.  The outer Option is none when
the tick trace is exhausted with the loop still running. -/
def blockingLock : List PollTick → Option (Option GoErr)
  | [] => none
  | t :: ts =>
      if t.ctxDone then
        some (some (GoErr.wrap ctxTimeoutMsg GoErr.ctxCanceled))
      else if t.timedOut then
        some (some (GoErr.wrap blockTimeoutMsg GoErr.lockAcquiredByOthers))
      else
        match t.tryRes with
        | none => some none
        | some e => if IsRetryableErr e then blockingLock ts else some (some e)

/-- Per-tick outcome classifier written from the specified termination
cases of the poll loop: cancellation when the context is done, a timeout
wrapping the contention error when the budget elapses, success when the
attempt succeeds, immediate abort on a non-retryable error, and no
outcome (continue) on retryable contention. -/
def pollTickOutcome (t : PollTick) : Option (Option GoErr) :=
  if t.ctxDone then
    some (some (GoErr.wrap ctxTimeoutMsg GoErr.ctxCanceled))
  else if t.timedOut then
    some (some (GoErr.wrap blockTimeoutMsg GoErr.lockAcquiredByOthers))
  else
    match t.tryRes with
    | none => some none
    | some e => if IsRetryableErr e then none else some (some e)

/-- First decisive tick outcome in a trace, the specified meaning of the
poll loop: the loop terminates with the outcome of the first tick whose
classification is decisive. -/
def firstPollOutcome : List PollTick → Option (Option GoErr)
  | [] => none
  | t :: ts =>
      match pollTickOutcome t with
      | some r => some r
      | none => firstPollOutcome ts

/-- lock.go Lock lines 69-87 (without the deferred watchdog start): on a
successful first attempt return nil; otherwise return the error at once in
non-blocking mode or when it is not retryable, else run the poll loop. -/
def lockGo (first : Option GoErr) (isBlock : Bool) (ticks : List PollTick) :
    Option (Option GoErr) :=
  match first with
  | none => some none
  | some e =>
      if !isBlock then some (some e)
      else if !IsRetryableErr e then some (some e)
      else blockingLock ticks

/-- lock.go watchDog: in watchdog mode install the stop handle (the cancel
function of the freshly created child context) and start the renewal task;
otherwise return leaving the handle untouched. -/
def watchDog (watchDogMode : Bool) (stopDog : Option Unit) : Option Unit :=
  if watchDogMode then some () else stopDog

/-- lock.go Lock with its deferred watchdog start: the watchdog only runs
when the overall result is success, and only in watchdog mode does it set
the stop handle.  Returns the stop handle after the call and the Lock
result. -/
def lockWithDog (lo : LockOptions) (stopDog : Option Unit) (first : Option GoErr)
    (ticks : List PollTick) : Option Unit × Option (Option GoErr) :=
  let res := lockGo first lo.isBlock ticks
  match res with
  | some none => (watchDog lo.watchDogMode stopDog, res)
  | r => (stopDog, r)

/-- Message of the errors.New returned by DelayExpire on a failed
ownership check. -/
def delayExpireOwnershipMsg : String := "can not expire lock without ownership of lock"

/-- lock.go DelayExpire: Eval of the check-and-expire script on the
prefixed key; a transport error from Eval is returned, a script reply
other than 1 is the ownership error, reply 1 is success. -/
def DelayExpire (s : Store) (key token : String) (expireSeconds : Int)
    (transportErr : Option GoErr) : Store × Option GoErr :=
  match transportErr with
  | some e => (s, some e)
  | none =>
      let r := luaCheckAndExpireDistributionLock s (getLockKey key) token expireSeconds
      (r.1, if r.2 = 1 then none else some (GoErr.other delayExpireOwnershipMsg))

/-- One watchdog ticker tick: whether the Lock context (the parent of the
watchdog context) is cancelled by now, whether Unlock's stopDog cancel has
been called by now, and an optional transport error of this tick's renewal
Eval. -/
structure WatchTick where
  parentDone : Bool
  stopCalled : Bool
  evalErr : Option GoErr
deriving DecidableEq, Repr

/-- Done-ness of the watchdog context created by context.WithCancel on the
Lock context (lock.go line 103): a child context is done when its own
cancel has been called or its parent context is done. -/
def childCtxDone (t : WatchTick) : Bool := t.parentDone || t.stopCalled

/-- lock.go runWatchDog: on every ticker tick first test ctx.Done and
return if it fired, otherwise run DelayExpire for the tick period plus a
3 second margin and ignore its error.  Returns the final store and the
index of the tick at which the task exited (none while still running). -/
def runWatchDogAux (s : Store) (key token : String) (idx : Nat) :
    List WatchTick → Store × Option Nat
  | [] => (s, none)
  | t :: ts =>
      if childCtxDone t then (s, some idx)
      else
        let r := DelayExpire s key token (WatchDogWorkStepSeconds + 3) t.evalErr
        runWatchDogAux r.1 key token (idx + 1) ts

/-- lock.go runWatchDog entry point. -/
def runWatchDog (s : Store) (key token : String) (ticks : List WatchTick) :
    Store × Option Nat :=
  runWatchDogAux s key token 0 ticks

/-- First tick at which the watchdog's cancellation signal fires. -/
def firstCancelTick : List WatchTick → Option Nat
  | [] => none
  | t :: ts =>
      if childCtxDone t then some 0
      else (firstCancelTick ts).map (· + 1)

/-- redlock.go DefaultSingleLockTimeout: 50 ms expressed in nanoseconds
(Go time.Duration units). -/
def DefaultSingleLockTimeout : Int := 50000000

/-- option.go RedLockOptions: per-node timeout and overall expiry, both in
time.Duration nanoseconds. -/
structure RedLockOptions where
  singleNodesTimeout : Int
  expireDuration : Int
deriving DecidableEq, Repr

/-- option.go repairRedLock: default the per-node timeout when it is not
positive. -/
def repairRedLock (o : RedLockOptions) : RedLockOptions :=
  if o.singleNodesTimeout ≤ 0 then
    { o with singleNodesTimeout := DefaultSingleLockTimeout }
  else o

/-- Wrap-around of Go int64 arithmetic. -/
def wrap64 (x : Int) : Int := (x + 2 ^ 63) % 2 ^ 64 - 2 ^ 63

/-- redlock.go NewRedLock: fewer than 3 node configurations is a
construction error; after repairing the options, a supplied positive
expiry that is exceeded by confs-length times the per-node timeout times
10 (int64 arithmetic) is a construction error; otherwise one member
RedisLock per configuration is built with WithExpireSeconds set to the
expiry in whole seconds, each normalized by repairLock.  No store traffic
happens here (the redis pools dial lazily). -/
def NewRedLock (confsLen : Nat) (o : RedLockOptions) :
    Except String (List LockOptions) :=
  if confsLen < 3 then Except.error "can not use redLock less than 3 nodes"
  else
    let o2 := repairRedLock o
    if o2.expireDuration > 0 ∧
        wrap64 (wrap64 ((confsLen : Int) * o2.singleNodesTimeout) * 10) > o2.expireDuration then
      Except.error "expire thresholds of single node is too long"
    else
      Except.ok (List.replicate confsLen
        (repairLock ⟨false, 0, o2.expireDuration / 1000000000, false⟩))

/-- One member lock of a RedLock as Unlock sees it: its stop handle and
the store it talks to. -/
structure MemberState where
  stopDog : Option Unit
  store : Store
  key : String
  token : String

/-- The result one member's Unlock call produces. -/
def memberUnlock (m : MemberState) : GoResult (Option GoErr) :=
  (Unlock m.stopDog m.store m.key m.token).2

/-- redlock.go Unlock loop: call Unlock on each member in order, keeping
the last non-nil error; a member panic propagates and aborts the loop.
Returns how many members were attempted and the last error. -/
def RedLockUnlockAux (attempted : Nat) (lastErr : Option GoErr) :
    List MemberState → GoResult (Nat × Option GoErr)
  | [] => GoResult.ok (attempted, lastErr)
  | m :: ms =>
      match memberUnlock m with
      | GoResult.panicked => GoResult.panicked
      | GoResult.ok e =>
          RedLockUnlockAux (attempted + 1)
            (match e with
             | some e2 => some e2
             | none => lastErr) ms

/-- redlock.go Unlock entry point. -/
def RedLockUnlock (ms : List MemberState) : GoResult (Nat × Option GoErr) :=
  RedLockUnlockAux 0 none ms

/-- The errors the member Unlock calls returned, in member order. -/
def memberUnlockErrs (ms : List MemberState) : List GoErr :=
  ms.filterMap fun m =>
    match memberUnlock m with
    | GoResult.ok (some e) => some e
    | _ => none

/-- Last element of a list of errors, the specified meaning of the
last-encountered member error. -/
def lastOf : List GoErr → Option GoErr
  | [] => none
  | [e] => some e
  | _ :: e2 :: es => lastOf (e2 :: es)

/-- One member's Lock attempt inside RedLock.Lock: whether it returned nil
and the wall time it took, in time.Duration nanoseconds. -/
structure NodeAttempt where
  ok : Bool
  costNs : Int
deriving DecidableEq, Repr

/-- redlock.go Lock success counter: a node counts when its Lock returned
nil and its elapsed time did not exceed the per-node timeout. -/
def successCntGo (attempts : List NodeAttempt) (timeout : Int) : Nat :=
  attempts.foldl
    (fun c a => if a.ok && decide (a.costNs ≤ timeout) then c + 1 else c) 0

/-- Specified success count: the number of attempts that returned success
within the per-node timeout. -/
def successCntSpec (attempts : List NodeAttempt) (timeout : Int) : Nat :=
  (attempts.filter fun a => a.ok && decide (a.costNs ≤ timeout)).length

/-- Message of the quorum-failure error of redlock.go Lock. -/
def quorumFailMsg : String := "lock failed, 未取得多数席位"

/-- redlock.go Lock: count successful member attempts; when the count
misses floor(N over 2) plus 1, broadcast Unlock over all members (its
return value is ignored, but a member panic propagates) and return the
quorum-failure error; otherwise return nil. -/
def RedLockLock (attempts : List NodeAttempt) (timeout : Int)
    (members : List MemberState) : GoResult (Option GoErr) :=
  if successCntGo attempts timeout < attempts.length / 2 + 1 then
    match RedLockUnlock members with
    | GoResult.panicked => GoResult.panicked
    | GoResult.ok _ => GoResult.ok (some (GoErr.other quorumFailMsg))
  else GoResult.ok none

/-! Helper lemmas shared by the claim theorems. -/

theorem isStoreErr_not_retryable :
    ∀ e : GoErr, isStoreErr e = true → IsRetryableErr e = false := by
  intro e
  induction e with
  | errNil => intro _; rfl
  | lockAcquiredByOthers => intro h; simp [isStoreErr] at h
  | ctxCanceled => intro h; simp [isStoreErr] at h
  | transport m => intro _; rfl
  | other m => intro h; simp [isStoreErr] at h
  | wrap m inner ih =>
      intro h
      simp only [isStoreErr] at h
      show (decide (GoErr.wrap m inner = GoErr.lockAcquiredByOthers) ||
        errorsIs inner GoErr.lockAcquiredByOthers) = false
      rw [decide_eq_false (fun hc => GoErr.noConfusion hc), Bool.false_or]
      exact ih h

theorem blockingLock_eq_firstPollOutcome :
    ∀ ticks : List PollTick, blockingLock ticks = firstPollOutcome ticks := by
  intro ticks
  induction ticks with
  | nil => rfl
  | cons t ts ih =>
      by_cases h1 : t.ctxDone
      · simp [blockingLock, firstPollOutcome, pollTickOutcome, h1]
      · by_cases h2 : t.timedOut
        · simp [blockingLock, firstPollOutcome, pollTickOutcome, h1, h2]
        · cases h3 : t.tryRes with
          | none => simp [blockingLock, firstPollOutcome, pollTickOutcome, h1, h2, h3]
          | some e =>
              by_cases h4 : IsRetryableErr e
              · simp [blockingLock, firstPollOutcome, pollTickOutcome, h1, h2, h3, h4, ih]
              · simp [blockingLock, firstPollOutcome, pollTickOutcome, h1, h2, h3, h4]

theorem runWatchDogAux_exit (key token : String) :
    ∀ (ticks : List WatchTick) (s : Store) (idx : Nat),
      (runWatchDogAux s key token idx ticks).2 =
        (firstCancelTick ticks).map (· + idx) := by
  intro ticks
  induction ticks with
  | nil => intro s idx; rfl
  | cons t ts ih =>
      intro s idx
      by_cases h : childCtxDone t
      · simp [runWatchDogAux, firstCancelTick, h]
      · simp only [runWatchDogAux, firstCancelTick, h, if_false, Bool.false_eq_true,
          if_neg, ite_false]
        rw [ih _ (idx + 1)]
        cases firstCancelTick ts with
        | none => rfl
        | some i => simp; omega

theorem runWatchDog_exit (s : Store) (key token : String) (ticks : List WatchTick) :
    (runWatchDog s key token ticks).2 = firstCancelTick ticks := by
  rw [runWatchDog, runWatchDogAux_exit key token ticks s 0]
  cases firstCancelTick ticks <;> rfl

theorem firstCancelTick_eq_of_map_eq :
    ∀ ticks ticks' : List WatchTick,
      ticks.map childCtxDone = ticks'.map childCtxDone →
      firstCancelTick ticks = firstCancelTick ticks' := by
  intro ticks
  induction ticks with
  | nil =>
      intro ticks' h
      cases ticks' with
      | nil => rfl
      | cons t ts => simp at h
  | cons t ts ih =>
      intro ticks' h
      cases ticks' with
      | nil => simp at h
      | cons t' ts' =>
          simp only [List.map_cons, List.cons.injEq] at h
          rw [firstCancelTick, firstCancelTick, h.1, ih ts' h.2]

theorem firstCancelTick_none_iff :
    ∀ ticks : List WatchTick,
      firstCancelTick ticks = none ↔ ∀ t ∈ ticks, childCtxDone t = false := by
  intro ticks
  induction ticks with
  | nil => simp [firstCancelTick]
  | cons t ts ih =>
      by_cases h : childCtxDone t
      · simp [firstCancelTick, h]
      · simp only [Bool.not_eq_true] at h
        simp [firstCancelTick, h, ih]

theorem lastOf_ne_none : ∀ (b : GoErr) (t : List GoErr), lastOf (b :: t) ≠ none := by
  intro b t
  induction t generalizing b with
  | nil => simp [lastOf]
  | cons c u ih => exact ih c

theorem lastOf_cons (a : GoErr) (l : List GoErr) :
    lastOf (a :: l) =
      match lastOf l with
      | some x => some x
      | none => some a := by
  cases l with
  | nil => rfl
  | cons b t =>
      show lastOf (b :: t) = _
      cases hl : lastOf (b :: t) with
      | some x => rfl
      | none => exact absurd hl (lastOf_ne_none b t)

theorem count_foldl (p : NodeAttempt → Bool) :
    ∀ (l : List NodeAttempt) (n : Nat),
      l.foldl (fun c a => if p a then c + 1 else c) n = n + (l.filter p).length := by
  intro l
  induction l with
  | nil => intro n; rfl
  | cons a l ih =>
      intro n
      by_cases h : p a
      · simp [List.foldl_cons, List.filter_cons, h, ih]; omega
      · simp [List.foldl_cons, List.filter_cons, h, ih]

theorem successCnt_eq (attempts : List NodeAttempt) (timeout : Int) :
    successCntGo attempts timeout = successCntSpec attempts timeout := by
  rw [successCntGo, successCntSpec, count_foldl]
  exact Nat.zero_add _

theorem RedLockUnlockAux_ok :
    ∀ (ms : List MemberState) (n : Nat) (last : Option GoErr),
      (∀ m ∈ ms, memberUnlock m ≠ GoResult.panicked) →
      RedLockUnlockAux n last ms =
        GoResult.ok (n + ms.length,
          match lastOf (memberUnlockErrs ms) with
          | some x => some x
          | none => last) := by
  intro ms
  induction ms with
  | nil => intro n last _; rfl
  | cons m ms ih =>
      intro n last h
      have hm : memberUnlock m ≠ GoResult.panicked := h m (List.mem_cons_self m ms)
      have hrest : ∀ m2 ∈ ms, memberUnlock m2 ≠ GoResult.panicked :=
        fun m2 hm2 => h m2 (List.mem_cons_of_mem m hm2)
      cases hme : memberUnlock m with
      | panicked => exact absurd hme hm
      | ok e =>
          have herrs : memberUnlockErrs (m :: ms) =
              (match e with
               | some e2 => e2 :: memberUnlockErrs ms
               | none => memberUnlockErrs ms) := by
            cases e <;> simp [memberUnlockErrs, List.filterMap_cons, hme]
          cases e with
          | none =>
              simp only [RedLockUnlockAux, hme, herrs]
              rw [ih (n + 1) last hrest]
              congr 2
              · simp [List.length_cons]; omega
          | some e2 =>
              simp only [RedLockUnlockAux, hme, herrs]
              rw [ih (n + 1) (some e2) hrest, lastOf_cons]
              cases lastOf (memberUnlockErrs ms) with
              | some x => simp [List.length_cons]; omega
              | none => simp [List.length_cons]; omega

theorem RedLockUnlock_ok (ms : List MemberState)
    (h : ∀ m ∈ ms, memberUnlock m ≠ GoResult.panicked) :
    RedLockUnlock ms = GoResult.ok (ms.length, lastOf (memberUnlockErrs ms)) := by
  rw [RedLockUnlock, RedLockUnlockAux_ok ms 0 none h]
  cases lastOf (memberUnlockErrs ms) <;> simp

theorem RedLockUnlockAux_panics :
    ∀ (ms : List MemberState) (n : Nat) (last : Option GoErr),
      (∃ m ∈ ms, m.stopDog = none) →
      RedLockUnlockAux n last ms = GoResult.panicked := by
  intro ms
  induction ms with
  | nil => intro n last h; simp at h
  | cons m ms ih =>
      intro n last h
      rcases h with ⟨m2, hm2, hsd⟩
      rcases List.mem_cons.mp hm2 with heq | hmem
      · subst heq
        have hp : memberUnlock m2 = GoResult.panicked := by
          simp [memberUnlock, Unlock, hsd]
        simp [RedLockUnlockAux, hp]
      · cases hmu : memberUnlock m with
        | panicked => simp [RedLockUnlockAux, hmu]
        | ok e =>
            simp only [RedLockUnlockAux, hmu]
            exact ih _ _ ⟨m2, hmem, hsd⟩

/-! Claim theorems. -/

/-- C1: tryLock is an atomic set-if-absent, so for every key at most one
instance (token) can hold a successful, unexpired lock at any instant: a
tryLock succeeds only when nothing is stored at the key's prefixed store
key, the winner then holds the lock, and two holders of the same key must
be the same token. -/
theorem tryLock_mutual_exclusion :
    ∀ (s : Store) (key token : String) (ttl : Int),
      ((tryLock s key token ttl).2 = none → s (getLockKey key) = none)
      ∧ ((tryLock s key token ttl).2 = none →
          holdsB (tryLock s key token ttl).1 key token = true)
      ∧ (∀ t1 t2 : String, holdsB s key t1 = true → holdsB s key t2 = true → t1 = t2) := by
  intro s key token ttl
  refine ⟨?_, ?_, ?_⟩
  · intro h
    cases hs : s (getLockKey key) with
    | none => rfl
    | some e => simp [tryLock, SetNX, hs, tryLockResult, errorsIs] at h
  · intro h
    cases hs : s (getLockKey key) with
    | none => simp [tryLock, SetNX, hs, holdsB, setKey]
    | some e => simp [tryLock, SetNX, hs, tryLockResult, errorsIs] at h
  · intro t1 t2 h1 h2
    cases hs : s (getLockKey key) with
    | none => simp [holdsB, hs] at h1
    | some e =>
        simp [holdsB, hs] at h1 h2
        rw [← h1, ← h2]

/-- Witness for C1 at concrete inputs: acquiring a fresh key succeeds and
the winner holds it; a held key has a unique holder token. -/
theorem tryLock_mutual_exclusion_witness :
    emptyStore (getLockKey "k") = none
    ∧ holdsB (tryLock emptyStore "k" "tok" 10).1 "k" "tok" = true
    ∧ "a" = "a" := by
  have hstore : holdsB (fun _ => some ⟨"a", (5 : Int)⟩) "k" "a" = true := by decide
  exact ⟨(tryLock_mutual_exclusion emptyStore "k" "tok" 10).1 rfl,
    (tryLock_mutual_exclusion emptyStore "k" "tok" 10).2.1 rfl,
    (tryLock_mutual_exclusion (fun _ => some ⟨"a", 5⟩) "k" "a" 10).2.2 "a" "a" hstore hstore⟩

/-- C6: tryLock turns the store's nil outcome of the conditional set (key
already present) into a wrap of ErrLockAcquiredByOthers, on which
IsRetryableErr is true; every other error is propagated unchanged, and no
store or transport error satisfies IsRetryableErr. -/
theorem tryLock_retryable_translation :
    (∀ (s : Store) (key token : String) (ttl : Int) (entry : StoreEntry),
        s (getLockKey key) = some entry →
        (tryLock s key token ttl).2 =
          some (GoErr.wrap tryLockFailMsg GoErr.lockAcquiredByOthers))
    ∧ IsRetryableErr (GoErr.wrap tryLockFailMsg GoErr.lockAcquiredByOthers) = true
    ∧ (∀ e : GoErr, errorsIs e GoErr.errNil = false → tryLockResult (some e) = some e)
    ∧ (∀ e : GoErr, isStoreErr e = true → IsRetryableErr e = false) := by
  refine ⟨?_, by decide, ?_, isStoreErr_not_retryable⟩
  · intro s key token ttl entry hs
    simp [tryLock, SetNX, hs, tryLockResult, errorsIs]
  · intro e he
    simp [tryLockResult, he]

/-- Witness for C6 at concrete inputs: contention on a held key yields the
retryable wrap; a transport error passes through and is not retryable. -/
theorem tryLock_retryable_translation_witness :
    (tryLock (fun _ => some ⟨"other", 9⟩) "k" "tok" 10).2 =
      some (GoErr.wrap tryLockFailMsg GoErr.lockAcquiredByOthers)
    ∧ tryLockResult (some (GoErr.transport "conn refused")) =
        some (GoErr.transport "conn refused")
    ∧ IsRetryableErr (GoErr.transport "conn refused") = false := by
  exact ⟨tryLock_retryable_translation.1 (fun _ => some ⟨"other", 9⟩) "k" "tok" 10
      ⟨"other", 9⟩ rfl,
    tryLock_retryable_translation.2.2.1 (GoErr.transport "conn refused") (by decide),
    tryLock_retryable_translation.2.2.2 (GoErr.transport "conn refused") (by decide)⟩

/-- C8: Unlock issues the single atomic check-and-delete script, whose
reply is 1 exactly when the caller's token owns the key; Unlock returns
success exactly in that case and the ownership-violation error in every
other non-error case, the key is deleted exactly on success, and a second
Unlock on the resulting store always returns the ownership error. -/
theorem Unlock_delete_if_owner :
    ∀ (s : Store) (key token : String),
      (luaCheckAndDeleteDistributionLock s (getLockKey key) token).2 =
        (if holdsB s key token then 1 else 0)
      ∧ (Unlock (some ()) s key token).2 =
          GoResult.ok (if holdsB s key token then none
            else some (GoErr.other unlockOwnershipMsg))
      ∧ (Unlock (some ()) s key token).1 (getLockKey key) =
          (if holdsB s key token then none else s (getLockKey key))
      ∧ (Unlock (some ()) (Unlock (some ()) s key token).1 key token).2 =
          GoResult.ok (some (GoErr.other unlockOwnershipMsg)) := by
  intro s key token
  cases hs : s (getLockKey key) with
  | none =>
      simp [Unlock, luaCheckAndDeleteDistributionLock, holdsB, hs]
  | some e =>
      by_cases he : e.val = token
      · simp [Unlock, luaCheckAndDeleteDistributionLock, holdsB, hs, he, delKey]
      · simp [Unlock, luaCheckAndDeleteDistributionLock, holdsB, hs, he]

/-- C7: the poll loop runs every 50 ms and terminates with the outcome of
the first decisive tick: cancellation when the caller context is done, a
timeout wrapping the contention error when the wait budget elapses,
success when an attempt succeeds, and immediate abort on a non-retryable
error; Lock returns the first attempt's result immediately when it
succeeded, in non-blocking mode, or on a non-retryable error, and enters
the poll loop only on blocking mode plus retryable contention. -/
theorem Lock_poll_loop_spec :
    pollIntervalMillis = 50
    ∧ (∀ ticks : List PollTick, blockingLock ticks = firstPollOutcome ticks)
    ∧ (∀ (e : GoErr) (ticks : List PollTick),
        lockGo (some e) false ticks = some (some e))
    ∧ (∀ (e : GoErr) (ticks : List PollTick), IsRetryableErr e = false →
        lockGo (some e) true ticks = some (some e))
    ∧ (∀ (b : Bool) (ticks : List PollTick), lockGo none b ticks = some none)
    ∧ (∀ (e : GoErr) (ticks : List PollTick), IsRetryableErr e = true →
        lockGo (some e) true ticks = blockingLock ticks) := by
  refine ⟨rfl, blockingLock_eq_firstPollOutcome, ?_, ?_, ?_, ?_⟩
  · intro e ticks; rfl
  · intro e ticks he; simp [lockGo, he]
  · intro b ticks; rfl
  · intro e ticks he; simp [lockGo, he]

/-- Witness for C7 at concrete inputs: a non-retryable first error returns
immediately in blocking mode, and retryable contention enters the poll
loop, here a trace that times out on its second tick. -/
theorem Lock_poll_loop_spec_witness :
    lockGo (some (GoErr.transport "dial err")) true [] =
      some (some (GoErr.transport "dial err"))
    ∧ lockGo (some GoErr.lockAcquiredByOthers) true
        [⟨false, false, some GoErr.lockAcquiredByOthers⟩, ⟨false, true, none⟩] =
      blockingLock
        [⟨false, false, some GoErr.lockAcquiredByOthers⟩, ⟨false, true, none⟩] := by
  exact ⟨Lock_poll_loop_spec.2.2.2.1 (GoErr.transport "dial err") [] (by decide),
    Lock_poll_loop_spec.2.2.2.2.2 GoErr.lockAcquiredByOthers
      [⟨false, false, some GoErr.lockAcquiredByOthers⟩, ⟨false, true, none⟩] (by decide)⟩

/-- C9: the watchdog renewal loop exits exactly at the first tick at which
its context's cancellation has fired, and its exit behaviour is a function
of the cancellation flags alone: the store contents, the keys and tokens,
and any renewal transport errors never terminate it. -/
theorem runWatchDog_stops_only_on_cancel :
    (∀ (s : Store) (key token : String) (ticks : List WatchTick),
        (runWatchDog s key token ticks).2 = firstCancelTick ticks)
    ∧ (∀ (s s' : Store) (k t k' t' : String) (ticks ticks' : List WatchTick),
        ticks.map childCtxDone = ticks'.map childCtxDone →
        (runWatchDog s k t ticks).2 = (runWatchDog s' k' t' ticks').2) := by
  refine ⟨runWatchDog_exit, ?_⟩
  intro s s' k t k' t' ticks ticks' h
  rw [runWatchDog_exit, runWatchDog_exit]
  exact firstCancelTick_eq_of_map_eq ticks ticks' h

/-- Witness for C9 at concrete inputs: two renewal runs over different
stores, tokens, and with a transport error injected into one renewal tick
exit at the same tick, the first one whose cancellation fired. -/
theorem runWatchDog_stops_only_on_cancel_witness :
    (runWatchDog emptyStore "k" "t"
        [⟨false, false, some (GoErr.transport "boom")⟩, ⟨false, true, none⟩]).2 =
      (runWatchDog (fun _ => some ⟨"t2", 4⟩) "k2" "t2"
        [⟨false, false, none⟩, ⟨true, false, none⟩]).2 :=
  runWatchDog_stops_only_on_cancel.2 emptyStore (fun _ => some ⟨"t2", 4⟩)
    "k" "t" "k2" "t2" _ _ (by decide)

/-- C3 counterexample: a watchdog run in which Unlock's stop handle is
never invoked (stopCalled is false at every tick) but the context passed
to Lock is cancelled exits at tick 0 — cancelling the original Lock
context does cancel the watchdog, because lock.go line 103 derives the
watchdog context from the Lock context. -/
theorem watchdog_parent_cancel_counterexample :
    ([(⟨true, false, none⟩ : WatchTick)].all (fun t => !t.stopCalled)) = true
    ∧ (runWatchDog emptyStore "k" "t" [⟨true, false, none⟩]).2 = some 0 := by
  exact ⟨rfl, rfl⟩

/-- C3 as amended: the watchdog context is a child of the Lock context, so
the watchdog task keeps running exactly while neither Unlock's stopDog
cancel has been called nor the Lock context has been cancelled; firing
either one cancels it. -/
theorem watchdog_cancelled_by_stop_or_parent :
    ∀ (s : Store) (key token : String) (ticks : List WatchTick),
      ((runWatchDog s key token ticks).2 = none ↔
        ∀ t ∈ ticks, t.stopCalled = false ∧ t.parentDone = false) := by
  intro s key token ticks
  rw [runWatchDog_exit, firstCancelTick_none_iff]
  constructor
  · intro h t ht
    have := h t ht
    simp [childCtxDone] at this
    exact ⟨this.2, this.1⟩
  · intro h t ht
    have := h t ht
    simp [childCtxDone, this.1, this.2]

/-- Witness for C3's amended theorem at a concrete input: with no stop
call and no parent cancellation in the trace the watchdog is still
running. -/
theorem watchdog_cancelled_by_stop_or_parent_witness :
    (runWatchDog emptyStore "k" "t" [⟨false, false, none⟩]).2 = none :=
  (watchdog_cancelled_by_stop_or_parent emptyStore "k" "t"
    [⟨false, false, none⟩]).mpr (by decide)

/-- C5: when the watchdog never started, Unlock panics through the nil
stopDog handle: an explicit positive expiry keeps watchDogMode off after
repairLock, a Lock in non-watchdog mode or a failed Lock leaves the stop
handle nil, Unlock with a nil handle panics on every store, and RedLock's
broadcast release panics as soon as any member's stop handle is nil. -/
theorem Unlock_nil_stopdog_panics :
    (∀ (b : Bool) (w e : Int), 0 < e →
        (repairLock ⟨b, w, e, false⟩).watchDogMode = false)
    ∧ (∀ (lo : LockOptions) (sd : Option Unit) (first : Option GoErr)
          (ticks : List PollTick), lo.watchDogMode = false →
        (lockWithDog lo sd first ticks).1 = sd)
    ∧ (∀ (lo : LockOptions) (first : Option GoErr) (ticks : List PollTick),
        lockGo first lo.isBlock ticks ≠ some none →
        (lockWithDog lo none first ticks).1 = none)
    ∧ (∀ (s : Store) (key token : String),
        (Unlock none s key token).2 = GoResult.panicked)
    ∧ (∀ ms : List MemberState, (∃ m ∈ ms, m.stopDog = none) →
        RedLockUnlock ms = GoResult.panicked) := by
  refine ⟨?_, ?_, ?_, ?_, ?_⟩
  · intro b w e he
    simp only [repairLock]
    split <;> simp [he]
  · intro lo sd first ticks hmode
    cases h : lockGo first lo.isBlock ticks with
    | none => simp [lockWithDog, h]
    | some r =>
        cases r with
        | none => simp [lockWithDog, h, watchDog, hmode]
        | some e => simp [lockWithDog, h]
  · intro lo first ticks hres
    cases h : lockGo first lo.isBlock ticks with
    | none => simp [lockWithDog, h]
    | some r =>
        cases r with
        | none => exact absurd h hres
        | some e => simp [lockWithDog, h]
  · intro s key token
    simp [Unlock]
  · intro ms h
    exact RedLockUnlockAux_panics ms 0 none h

/-- Witness for C5 at concrete inputs: an explicit 7 second expiry leaves
watchdog mode off; Lock in non-watchdog mode and a failed Lock both leave
the handle nil; Unlock with a nil handle panics; a RedLock release over a
member with a nil handle panics. -/
theorem Unlock_nil_stopdog_panics_witness :
    (repairLock ⟨false, 0, 7, false⟩).watchDogMode = false
    ∧ (lockWithDog ⟨false, 0, 7, false⟩ none none []).1 = none
    ∧ (lockWithDog ⟨true, 5, 7, true⟩ none (some GoErr.ctxCanceled) []).1 = none
    ∧ (Unlock none emptyStore "k" "t").2 = GoResult.panicked
    ∧ RedLockUnlock [⟨none, emptyStore, "k", "t"⟩] = GoResult.panicked := by
  refine ⟨Unlock_nil_stopdog_panics.1 false 0 7 (by decide),
    Unlock_nil_stopdog_panics.2.1 ⟨false, 0, 7, false⟩ none none [] rfl,
    Unlock_nil_stopdog_panics.2.2.1 ⟨true, 5, 7, true⟩ (some GoErr.ctxCanceled) []
      (by decide),
    Unlock_nil_stopdog_panics.2.2.2.1 emptyStore "k" "t",
    Unlock_nil_stopdog_panics.2.2.2.2 [⟨none, emptyStore, "k", "t"⟩]
      ⟨⟨none, emptyStore, "k", "t"⟩, List.mem_singleton.mpr rfl, rfl⟩⟩

/-- C10: when no member Unlock panics, RedLock.Unlock attempts every
member (the attempted count equals the member count, no short-circuit on
individual failures) and returns the last-encountered member error; when
every member succeeds it returns nil. -/
theorem RedLockUnlock_all_members :
    ∀ ms : List MemberState,
      (∀ m ∈ ms, memberUnlock m ≠ GoResult.panicked) →
      RedLockUnlock ms = GoResult.ok (ms.length, lastOf (memberUnlockErrs ms))
      ∧ ((∀ m ∈ ms, memberUnlock m = GoResult.ok none) →
          RedLockUnlock ms = GoResult.ok (ms.length, none)) := by
  intro ms h
  refine ⟨RedLockUnlock_ok ms h, ?_⟩
  intro hall
  have herrs : memberUnlockErrs ms = [] := by
    rw [memberUnlockErrs, List.filterMap_eq_nil_iff]
    intro m hm
    rw [hall m hm]
  rw [RedLockUnlock_ok ms h, herrs]
  rfl

/-- Witness for C10 at a concrete input: over one owning member and one
non-owning member, both members are attempted and the second member's
ownership error is returned as the last-encountered error. -/
theorem RedLockUnlock_all_members_witness :
    RedLockUnlock [⟨some (), fun _ => some ⟨"t1", 5⟩, "k", "t1"⟩,
        ⟨some (), fun _ => none, "k", "t2"⟩] =
      GoResult.ok (2, some (GoErr.other unlockOwnershipMsg)) := by
  rw [(RedLockUnlock_all_members
    [⟨some (), fun _ => some ⟨"t1", 5⟩, "k", "t1"⟩,
     ⟨some (), fun _ => none, "k", "t2"⟩] (by decide)).1]
  rfl

/-- C2: RedLock.Lock counts a member as successful exactly when its Lock
returned success and its elapsed time did not exceed the per-node timeout;
when the count reaches floor of N over 2 plus 1 it returns nil, and
otherwise it broadcasts Unlock over every member and returns the
quorum-failure error. -/
theorem RedLockLock_quorum :
    ∀ (attempts : List NodeAttempt) (timeout : Int) (members : List MemberState),
      successCntGo attempts timeout = successCntSpec attempts timeout
      ∧ ((∀ m ∈ members, memberUnlock m ≠ GoResult.panicked) →
          (successCntSpec attempts timeout ≥ attempts.length / 2 + 1 →
            RedLockLock attempts timeout members = GoResult.ok none)
          ∧ (successCntSpec attempts timeout < attempts.length / 2 + 1 →
            RedLockLock attempts timeout members =
              GoResult.ok (some (GoErr.other quorumFailMsg))
            ∧ RedLockUnlock members =
                GoResult.ok (members.length, lastOf (memberUnlockErrs members)))) := by
  intro attempts timeout members
  refine ⟨successCnt_eq attempts timeout, ?_⟩
  intro hnp
  constructor
  · intro hge
    rw [RedLockLock, if_neg]
    rw [successCnt_eq]
    omega
  · intro hlt
    have hu := RedLockUnlock_ok members hnp
    refine ⟨?_, hu⟩
    rw [RedLockLock,
      if_pos (show successCntGo attempts timeout < attempts.length / 2 + 1 by
        rw [successCnt_eq]; exact hlt), hu]

/-- Witness for C2 at concrete inputs: of three attempts one is a success
within budget, one returned an error and one succeeded too slowly, so the
count is 1, short of 2, and a quorum-failure error is returned after
broadcasting Unlock over the (empty) member list. -/
theorem RedLockLock_quorum_witness :
    RedLockLock [⟨true, 10⟩, ⟨false, 0⟩, ⟨true, 100⟩] 50 [] =
      GoResult.ok (some (GoErr.other quorumFailMsg)) :=
  (((RedLockLock_quorum [⟨true, 10⟩, ⟨false, 0⟩, ⟨true, 100⟩] 50 []).2
    (by decide)).2 (by decide)).1

/-- C4 counterexample: with 3 nodes, an explicit 10 second per-node
timeout and no overall expiry supplied, NewRedLock succeeds although
N times the per-node timeout times 10 (300 seconds) exceeds both the
configured overall lease duration (zero) and the 10 second default member
lease, because redlock.go line 31 runs the timing check only when
expireDuration is positive. -/
theorem NewRedLock_timing_check_counterexample :
    (NewRedLock 3 ⟨10000000000, 0⟩).isOk = true
    ∧ (3 : Int) * 10000000000 * 10 > 0
    ∧ (3 : Int) * 10000000000 * 10 > 10 * 1000000000 := by
  refine ⟨by decide, by decide, by decide⟩

/-- C4 as amended: NewRedLock returns a configuration error exactly when
fewer than 3 node configurations are supplied, or a positive overall
expiry was supplied and confs-length times the repaired per-node timeout
times 10 (in wrapping int64 arithmetic) exceeds it; in every other case it
returns, error-free, one member lock configuration per node. -/
theorem NewRedLock_construction :
    ∀ (n : Nat) (o : RedLockOptions),
      ((NewRedLock n o).isOk = true ↔
        (3 ≤ n ∧ ((repairRedLock o).expireDuration > 0 →
          wrap64 (wrap64 ((n : Int) * (repairRedLock o).singleNodesTimeout) * 10) ≤
            (repairRedLock o).expireDuration)))
      ∧ (∀ locks, NewRedLock n o = Except.ok locks → locks.length = n) := by
  intro n o
  constructor
  · by_cases h1 : n < 3
    · apply iff_of_false
      · simp [NewRedLock, h1, Except.isOk, Except.toBool]
      · intro h3
        exact absurd h3.1 (by omega)
    · by_cases h2 : (repairRedLock o).expireDuration > 0 ∧
          wrap64 (wrap64 ((n : Int) * (repairRedLock o).singleNodesTimeout) * 10) >
            (repairRedLock o).expireDuration
      · apply iff_of_false
        · simp [NewRedLock, h1, h2, Except.isOk, Except.toBool]
        · intro h3
          exact absurd (h3.2 h2.1) (by omega)
      · apply iff_of_true
        · simp [NewRedLock, h1, h2, Except.isOk, Except.toBool]
        · push_neg at h2
          exact ⟨by omega, h2⟩
  · intro locks h
    simp only [NewRedLock] at h
    split at h
    · cases h
    · split at h
      · cases h
      · injection h with h2
        rw [← h2, List.length_replicate]

/-- Witness for C4's amended theorem at a concrete input: three nodes with
default options construct successfully and three member lock
configurations are produced. -/
theorem NewRedLock_construction_witness :
    (NewRedLock 3 ⟨0, 0⟩).isOk = true
    ∧ (List.replicate 3 (repairLock ⟨false, 0, 0, false⟩)).length = 3 := by
  refine ⟨?_, (NewRedLock_construction 3 ⟨0, 0⟩).2 _ rfl⟩
  exact ((NewRedLock_construction 3 ⟨0, 0⟩).1).mpr ⟨by omega, by decide⟩

end RedisLockModel
